import Mathlib

/-!
Shallow embedding of the model-preparation logic of
`iPythonNotebooks/Using_an_SBML_model.ipynb`: the reaction classification
loop (cell-5), the compound filter (cell-9), the bound reconciliation loop
(cell-17) and the solve invocation (cell-19).

Python dictionaries (`sbml.reactions`, `sbml.compounds`,
`uptake_secretion_reactions`, `filtered_compounds`) are embedded as
association lists `List (String × _)` in insertion order; the set
`reactions_to_run` as a `List String`; float bounds as `Rat` (the notebook
only ever writes the constant `0.0` into a bound, no float arithmetic
occurs).  In-place mutation of a record that is shared between the
authoritative `reactions` store and the `uptake_secretion_reactions`
mapping is rendered by updating both views with the same pure record.
-/

/-- A compound record: display name and the uptake/secretion flag, the two
fields the notebook reads (`c.uptake_secretion`, membership in `media`). -/
structure Compound where
  name : String
  uptake_secretion : Bool
deriving Repr, DecidableEq

/-- A reaction record as the notebook uses it: display name, the compounds
returned by `all_compounds()`, the flux bound pair and the
`is_uptake_secretion` flag.  The reaction identifier is the key under which
the record is stored in the `reactions` mapping. -/
structure Reaction where
  name : String
  all_compounds : List Compound
  lower_bound : Rat
  upper_bound : Rat
  is_uptake_secretion : Bool
deriving Repr, DecidableEq

/-- Cell-5 biomass test: `'biomass_equation' in reactions[r].name.lower()`.
Lower-casing is done character by character on the underlying list. -/
def matches_biomass (name : String) : Bool :=
  decide ("biomass_equation".data <:+: name.data.map Char.toLower)

/-- Cell-5 inner loop: `is_boundary` is true iff some compound of the
reaction has `c.uptake_secretion` set. -/
def is_boundary_rxn (rxn : Reaction) : Bool :=
  rxn.all_compounds.any (fun c => c.uptake_secretion)

/-- Cell-5 side effect `reactions[r].is_uptake_secretion = True`. -/
def set_uptake_flag (rxn : Reaction) : Reaction :=
  { rxn with is_uptake_secretion := true }

/-- The four outputs of the cell-5 loop: the (possibly mutated)
authoritative `reactions` store, the `reactions_to_run` set, the
`uptake_secretion_reactions` mapping and the `biomass_equation` reaction
(kept together with the key it was found under). -/
structure ClassifyResult where
  reactions : List (String × Reaction)
  reactions_to_run : List String
  uptake_secretion_reactions : List (String × Reaction)
  biomass_equation : Option (String × Reaction)
deriving Repr, DecidableEq

/-- The cell-5 classification loop.  Iteration order is the order of the
association list; a later `biomass_equation` match overwrites an earlier
one, hence the `getD`: the head candidate is used only when the rest of the
list (the later iterations) produced none. -/
def classify : List (String × Reaction) → ClassifyResult
  | [] => ⟨[], [], [], none⟩
  | (r, rxn) :: rest =>
    if matches_biomass rxn.name then
      ⟨(r, rxn) :: (classify rest).reactions,
        (classify rest).reactions_to_run,
        (classify rest).uptake_secretion_reactions,
        some (((classify rest).biomass_equation).getD (r, rxn))⟩
    else if is_boundary_rxn rxn then
      ⟨(r, set_uptake_flag rxn) :: (classify rest).reactions,
        (classify rest).reactions_to_run,
        (r, set_uptake_flag rxn) :: (classify rest).uptake_secretion_reactions,
        (classify rest).biomass_equation⟩
    else
      ⟨(r, rxn) :: (classify rest).reactions,
        r :: (classify rest).reactions_to_run,
        (classify rest).uptake_secretion_reactions,
        (classify rest).biomass_equation⟩

/-- Keys of the boundary mapping produced by the classifier. -/
def boundary_ids (cl : ClassifyResult) : List String :=
  cl.uptake_secretion_reactions.map Prod.fst

/-- The biomass output as a set of reaction ids: empty for the sentinel
`none`, a singleton otherwise. -/
def biomass_ids (cl : ClassifyResult) : List String :=
  match cl.biomass_equation with
  | none => []
  | some b => [b.1]

/-- Cell-9: `filtered_compounds` keeps exactly the compounds whose
`uptake_secretion` flag is false, under their original keys. -/
def filter_compounds (acs : List (String × Compound)) : List (String × Compound) :=
  acs.filter (fun p => !p.2.uptake_secretion)

/-- Cell-17 inner loop: `is_media_component` is true iff some compound of
the reaction is a member of `media`. -/
def is_media_component (media : List Compound) (rxn : Reaction) : Bool :=
  rxn.all_compounds.any (fun c => decide (c ∈ media))

/-- Cell-17 per-reaction update: reactions with no media component get
`lower_bound = 0.0`, the rest are untouched. -/
def reconcile (media : List Compound) (rxn : Reaction) : Reaction :=
  if is_media_component media rxn then rxn else { rxn with lower_bound := 0 }

/-- The cell-17 loop as it acts on the `uptake_secretion_reactions`
mapping (`uptake_secretion_reactions[u].lower_bound = 0.0`). -/
def adjust_bounds (media : List Compound) (usr : List (String × Reaction)) :
    List (String × Reaction) :=
  usr.map (fun u => (u.1, reconcile media u.2))

/-- The cell-17 loop as it acts on one entry of the authoritative
`reactions` store: the entry is rewritten (`reactions[u].lower_bound = 0.0`)
iff its key is a boundary key whose boundary record fails the media test. -/
def adjust_store_entry (media : List Compound) (usr : List (String × Reaction))
    (p : String × Reaction) : String × Reaction :=
  match usr.lookup p.1 with
  | none => p
  | some b => if is_media_component media b then p else (p.1, { p.2 with lower_bound := 0 })

/-- The cell-17 loop as it acts on the authoritative `reactions` store. -/
def adjust_reactions (media : List Compound) (usr : List (String × Reaction))
    (reactions : List (String × Reaction)) : List (String × Reaction) :=
  reactions.map (adjust_store_entry media usr)

/-- The authoritative reaction store as the solver sees it in cell-19:
classified (flags set) and reconciled (bounds clamped). -/
def prepared_reactions (rs : List (String × Reaction)) (media : List Compound) :
    List (String × Reaction) :=
  adjust_reactions media (classify rs).uptake_secretion_reactions (classify rs).reactions

/-- Result triple of the external solver collaborator:
`status, value, growth` as returned by `PyFBA.fba.run_fba`. -/
structure FBAOutcome where
  status : String
  value : Rat
  growth : Bool
deriving Repr, DecidableEq

/-- Signature of the external solver collaborator: it receives the filtered
compounds, the reaction store, the runnable ids, the medium, the biomass
reaction and the boundary mapping. -/
abbrev SolverFn : Type :=
  List (String × Compound) → List (String × Reaction) → List String →
    List Compound → String × Reaction → List (String × Reaction) → FBAOutcome

/-- Modelled from the spec: the error kinds of the preparation pipeline.
The error-handling facade itself is not under `src/`; the notebook only
shows the bare `run_fba` call, while section 7 of the design requires that a
solve request with no identified objective raise `MissingObjective`. -/
inductive PrepError where
  | MissingObjective
deriving Repr, DecidableEq

/-- Modelled from the spec: the preparation pipeline followed by the solve
invocation of cell-19.  Classification (cell-5), filtering (cell-9) and
reconciliation (cell-17) come straight from the notebook; the guard that
refuses to invoke the solver when no biomass reaction was identified is the
`MissingObjective` requirement of section 7 of the design, which has no
counterpart under `src/`. -/
def run_pipeline (solver : SolverFn) (rs : List (String × Reaction))
    (acs : List (String × Compound)) (media : List Compound) :
    Except PrepError FBAOutcome :=
  match (classify rs).biomass_equation with
  | none => Except.error PrepError.MissingObjective
  | some bm =>
      Except.ok (solver (filter_compounds acs) (prepared_reactions rs media)
        (classify rs).reactions_to_run media bm
        (adjust_bounds media (classify rs).uptake_secretion_reactions))

/-- What the cell-5 loop does to a single record of the `reactions` store. -/
def classify_rxn (rxn : Reaction) : Reaction :=
  if matches_biomass rxn.name then rxn
  else if is_boundary_rxn rxn then set_uptake_flag rxn
  else rxn

/-- The fields of a store entry that the preparation pipeline never writes:
the key, the display name, the upper bound and the compound set. -/
def frame_view (p : String × Reaction) : String × String × Rat × List Compound :=
  (p.1, p.2.name, p.2.upper_bound, p.2.all_compounds)

/-- Concrete model used to witness the partition property: one boundary
reaction, one biomass reaction, one runnable reaction. -/
def c1_model : List (String × Reaction) :=
  [("r1", ⟨"rxn one", [⟨"A", true⟩], -1000, 1000, false⟩),
   ("r2", ⟨"the biomass_equation rxn", [], 0, 1000, false⟩),
   ("r3", ⟨"rxn three", [⟨"B", false⟩], -5, 5, false⟩)]

/-- Concrete medium used to witness the bound reconciliation property. -/
def c2_media : List Compound :=
  [⟨"glucose", false⟩]

/-- Concrete boundary mapping used to witness the bound reconciliation
property: the first reaction has no compound in the medium (and a negative
lower bound), the second has one. -/
def c2_usr : List (String × Reaction) :=
  [("u1", ⟨"EX A", [⟨"A", true⟩], -1000, 1000, true⟩),
   ("u2", ⟨"EX glucose", [⟨"glucose", false⟩], -1000, 1000, true⟩)]

/-- Concrete model used to witness the boundary classification property. -/
def c3_model : List (String × Reaction) :=
  [("b1", ⟨"exchange", [⟨"X", true⟩, ⟨"Y", false⟩], -10, 10, false⟩),
   ("n1", ⟨"internal", [⟨"Y", false⟩], -10, 10, false⟩)]

/-- Concrete model used to witness the biomass selection property. -/
def c4_model : List (String × Reaction) :=
  [("r1", ⟨"rxn one", [⟨"A", true⟩], -1000, 1000, false⟩),
   ("r2", ⟨"Biomass_Equation", [], 0, 1000, false⟩),
   ("r3", ⟨"rxn three", [⟨"B", false⟩], -5, 5, false⟩)]

/-- Concrete compound mapping used to witness the compound filter. -/
def c5_compounds : List (String × Compound) :=
  [("w", ⟨"water", false⟩), ("e", ⟨"exchanged", true⟩)]

/-- Concrete model with no biomass-matching reaction, used to witness the
missing-objective behaviour. -/
def c6_model : List (String × Reaction) :=
  [("r1", ⟨"rxn one", [⟨"A", true⟩], -1000, 1000, false⟩)]

/-- Counterexample model: its classifier output has an empty boundary
mapping (the single reaction references no flagged compound). -/
def c9_model : List (String × Reaction) :=
  [("r1", ⟨"rxn one", [⟨"water", false⟩], -1000, 1000, false⟩)]

/-- Counterexample compound mapping: holds a flagged compound that no
reaction references, which the filter drops. -/
def c9_compounds : List (String × Compound) :=
  [("water", ⟨"water", false⟩), ("ex1", ⟨"ex1", true⟩)]

/-- Model for the amended empty-boundary claim: one runnable reaction whose
only compound is unflagged. -/
def c9w_model : List (String × Reaction) :=
  [("r1", ⟨"rxn one", [⟨"water", false⟩], -1000, 1000, false⟩)]

/-- Compound mapping for the amended empty-boundary claim: every compound
is unflagged and referenced. -/
def c9w_compounds : List (String × Compound) :=
  [("water", ⟨"water", false⟩)]

/-- Medium for the amended empty-boundary claim. -/
def c9w_media : List Compound :=
  [⟨"water", false⟩]

/-- Concrete model used to witness flag preservation: a runnable reaction
whose own flag was already true at loader output. -/
def c10_model : List (String × Reaction) :=
  [("r1", ⟨"rxn one", [⟨"water", false⟩], -1000, 1000, true⟩)]

theorem eq_of_mem_of_nodup_keys {β : Type} {l : List (String × β)}
    (hnd : (l.map Prod.fst).Nodup) {k : String} {a b : β}
    (ha : (k, a) ∈ l) (hb : (k, b) ∈ l) : a = b := by
  induction l with
  | nil => cases ha
  | cons p rest ih =>
    simp only [List.map_cons, List.nodup_cons] at hnd
    rcases List.mem_cons.mp ha with ha1 | ha2 <;>
      rcases List.mem_cons.mp hb with hb1 | hb2
    · exact congrArg Prod.snd (ha1.trans hb1.symm)
    · exfalso
      apply hnd.1
      rw [← ha1]
      simpa using List.mem_map_of_mem Prod.fst hb2
    · exfalso
      apply hnd.1
      rw [← hb1]
      simpa using List.mem_map_of_mem Prod.fst ha2
    · exact ih hnd.2 ha2 hb2

theorem classify_reactions_eq (rs : List (String × Reaction)) :
    (classify rs).reactions = rs.map (fun p => (p.1, classify_rxn p.2)) := by
  induction rs with
  | nil => rfl
  | cons p rest ih =>
    obtain ⟨r, rxn⟩ := p
    by_cases hm : matches_biomass rxn.name = true
    · simp [classify, classify_rxn, hm, ih]
    · by_cases hb : is_boundary_rxn rxn = true
      · simp [classify, classify_rxn, hm, hb, ih]
      · simp [classify, classify_rxn, hm, hb, ih]

theorem classify_usr_eq (rs : List (String × Reaction)) :
    (classify rs).uptake_secretion_reactions =
      (rs.filter (fun p => !matches_biomass p.2.name && is_boundary_rxn p.2)).map
        (fun p => (p.1, set_uptake_flag p.2)) := by
  induction rs with
  | nil => rfl
  | cons p rest ih =>
    obtain ⟨r, rxn⟩ := p
    by_cases hm : matches_biomass rxn.name = true
    · simp [classify, List.filter_cons, hm, ih]
    · by_cases hb : is_boundary_rxn rxn = true
      · simp [classify, List.filter_cons, hm, hb, ih]
      · simp [classify, List.filter_cons, hm, hb, ih]

theorem classify_run_eq (rs : List (String × Reaction)) :
    (classify rs).reactions_to_run =
      (rs.filter (fun p => !matches_biomass p.2.name && !is_boundary_rxn p.2)).map Prod.fst := by
  induction rs with
  | nil => rfl
  | cons p rest ih =>
    obtain ⟨r, rxn⟩ := p
    by_cases hm : matches_biomass rxn.name = true
    · simp [classify, List.filter_cons, hm, ih]
    · by_cases hb : is_boundary_rxn rxn = true
      · simp [classify, List.filter_cons, hm, hb, ih]
      · simp [classify, List.filter_cons, hm, hb, ih]

theorem classify_biomass_none (rs : List (String × Reaction))
    (h : ∀ p ∈ rs, matches_biomass p.2.name = false) :
    (classify rs).biomass_equation = none := by
  induction rs with
  | nil => rfl
  | cons p rest ih =>
    obtain ⟨r, rxn⟩ := p
    have hm : matches_biomass rxn.name = false := h (r, rxn) (List.mem_cons_self _ _)
    have ih' := ih (fun q hq => h q (List.mem_cons_of_mem _ hq))
    by_cases hb : is_boundary_rxn rxn = true
    · simp [classify, hm, hb, ih']
    · simp [classify, hm, hb, ih']

theorem classify_biomass_of_match (rs : List (String × Reaction))
    (hone : (rs.filter (fun p => matches_biomass p.2.name)).length ≤ 1)
    {r : String} {rxn : Reaction} (hmem : (r, rxn) ∈ rs)
    (hm : matches_biomass rxn.name = true) :
    (classify rs).biomass_equation = some (r, rxn) := by
  induction rs with
  | nil => cases hmem
  | cons p rest ih =>
    obtain ⟨a, b⟩ := p
    by_cases hm' : matches_biomass b.name = true
    · have h0 : ∀ q ∈ rest, matches_biomass q.2.name = false := by
        have hlen : (rest.filter (fun p => matches_biomass p.2.name)).length = 0 := by
          simp only [List.filter_cons, hm', if_pos, List.length_cons] at hone
          omega
        intro q hq
        by_contra hq'
        have : q ∈ rest.filter (fun p => matches_biomass p.2.name) :=
          List.mem_filter.mpr ⟨hq, by simpa using hq'⟩
        rw [List.length_eq_zero.mp hlen] at this
        cases this
      have heq : (r, rxn) = (a, b) := by
        rcases List.mem_cons.mp hmem with h1 | h2
        · exact h1
        · exact absurd hm (by simp [h0 (r, rxn) h2])
      have hnone := classify_biomass_none rest h0
      simp [classify, hm', hnone, ← heq]
    · have heq : (r, rxn) ∈ rest := by
        rcases List.mem_cons.mp hmem with h1 | h2
        · exfalso
          apply hm'
          have : rxn = b := congrArg Prod.snd h1
          rw [← this]
          exact hm
        · exact h2
      have hone' : (rest.filter (fun p => matches_biomass p.2.name)).length ≤ 1 := by
        simpa [List.filter_cons, hm'] using hone
      have ih' := ih hone' heq
      by_cases hb : is_boundary_rxn b = true
      · simpa [classify, hm', hb] using ih'
      · simpa [classify, hm', hb] using ih'

theorem biomass_ids_of_none {cl : ClassifyResult} (h : cl.biomass_equation = none) :
    biomass_ids cl = [] := by
  unfold biomass_ids
  rw [h]

theorem biomass_ids_of_some {cl : ClassifyResult} {b : String × Reaction}
    (h : cl.biomass_equation = some b) : biomass_ids cl = [b.1] := by
  unfold biomass_ids
  rw [h]

theorem classify_ids_multiset (rs : List (String × Reaction))
    (hone : (rs.filter (fun p => matches_biomass p.2.name)).length ≤ 1) :
    ((boundary_ids (classify rs) : Multiset String) +
        ((classify rs).reactions_to_run : Multiset String) +
        (biomass_ids (classify rs) : Multiset String)) =
      (rs.map Prod.fst : Multiset String) := by
  induction rs with
  | nil => rfl
  | cons p rest ih =>
    obtain ⟨r, rxn⟩ := p
    by_cases hm : matches_biomass rxn.name = true
    · have hlen : (rest.filter (fun p => matches_biomass p.2.name)).length = 0 := by
        simp only [List.filter_cons, hm, if_pos, List.length_cons] at hone
        omega
      have h0 : ∀ q ∈ rest, matches_biomass q.2.name = false := by
        intro q hq
        by_contra hq'
        have : q ∈ rest.filter (fun p => matches_biomass p.2.name) :=
          List.mem_filter.mpr ⟨hq, by simpa using hq'⟩
        rw [List.length_eq_zero.mp hlen] at this
        cases this
      have hnone := classify_biomass_none rest h0
      have ih' := ih (by omega)
      rw [biomass_ids_of_none hnone] at ih'
      simp only [Multiset.coe_nil, add_zero] at ih'
      have hbnd : boundary_ids (classify ((r, rxn) :: rest)) =
          boundary_ids (classify rest) := by
        simp [boundary_ids, classify, hm]
      have hrun : (classify ((r, rxn) :: rest)).reactions_to_run =
          (classify rest).reactions_to_run := by
        simp [classify, hm]
      have hsome : (classify ((r, rxn) :: rest)).biomass_equation = some (r, rxn) := by
        simp [classify, hm, hnone]
      have hbio : biomass_ids (classify ((r, rxn) :: rest)) = [r] :=
        biomass_ids_of_some hsome
      rw [hbnd, hrun, hbio, ih']
      simp only [List.map_cons]
      rw [add_comm, Multiset.coe_singleton, Multiset.singleton_add, Multiset.cons_coe]
    · have hone' : (rest.filter (fun p => matches_biomass p.2.name)).length ≤ 1 := by
        simpa [List.filter_cons, hm] using hone
      have ih' := ih hone'
      have hbio : biomass_ids (classify ((r, rxn) :: rest)) =
          biomass_ids (classify rest) := by
        unfold biomass_ids
        by_cases hb : is_boundary_rxn rxn = true
        · simp [classify, hm, hb]
        · simp [classify, hm, hb]
      by_cases hb : is_boundary_rxn rxn = true
      · have hbnd : boundary_ids (classify ((r, rxn) :: rest)) =
            r :: boundary_ids (classify rest) := by
          simp [boundary_ids, classify, hm, hb]
        have hrun : (classify ((r, rxn) :: rest)).reactions_to_run =
            (classify rest).reactions_to_run := by
          simp [classify, hm, hb]
        rw [hbnd, hrun, hbio]
        simp only [List.map_cons, ← Multiset.cons_coe, Multiset.cons_add]
        rw [ih']
      · have hbnd : boundary_ids (classify ((r, rxn) :: rest)) =
            boundary_ids (classify rest) := by
          simp [boundary_ids, classify, hm, hb]
        have hrun : (classify ((r, rxn) :: rest)).reactions_to_run =
            r :: (classify rest).reactions_to_run := by
          simp [classify, hm, hb]
        rw [hbnd, hrun, hbio]
        simp only [List.map_cons, ← Multiset.cons_coe, Multiset.cons_add, Multiset.add_cons]
        rw [ih']

theorem reconcile_all_compounds (media : List Compound) (rxn : Reaction) :
    (reconcile media rxn).all_compounds = rxn.all_compounds := by
  unfold reconcile
  by_cases h : is_media_component media rxn = true <;> simp [h]

theorem is_media_component_reconcile (media : List Compound) (rxn : Reaction) :
    is_media_component media (reconcile media rxn) = is_media_component media rxn := by
  unfold is_media_component
  rw [reconcile_all_compounds]

theorem reconcile_idem (media : List Compound) (rxn : Reaction) :
    reconcile media (reconcile media rxn) = reconcile media rxn := by
  by_cases h : is_media_component media rxn = true
  · have hr : reconcile media rxn = rxn := by rw [reconcile, if_pos h]
    rw [hr, hr]
  · have hr : reconcile media rxn = { rxn with lower_bound := 0 } := by
      rw [reconcile, if_neg h]
    rw [hr, reconcile]
    split
    · rfl
    · rfl

theorem lookup_adjust_bounds (media : List Compound) (usr : List (String × Reaction))
    (k : String) :
    (adjust_bounds media usr).lookup k = (usr.lookup k).map (fun b => reconcile media b) := by
  induction usr with
  | nil => rfl
  | cons u rest ih =>
    obtain ⟨a, b⟩ := u
    cases hka : (k == a) with
    | true => simp [adjust_bounds, List.lookup, hka]
    | false =>
      simp only [adjust_bounds, List.map_cons] at ih ⊢
      simp [List.lookup, hka, ih]

theorem adjust_store_entry_idem (media : List Compound) (usr : List (String × Reaction))
    (p : String × Reaction) :
    adjust_store_entry media (adjust_bounds media usr) (adjust_store_entry media usr p) =
      adjust_store_entry media usr p := by
  cases hl : usr.lookup p.1 with
  | none =>
    simp [adjust_store_entry, hl, lookup_adjust_bounds]
  | some b =>
    by_cases hc : is_media_component media b = true
    · simp [adjust_store_entry, hl, hc, lookup_adjust_bounds, is_media_component_reconcile,
        reconcile, hc]
    · simp [adjust_store_entry, hl, hc, lookup_adjust_bounds, is_media_component_reconcile]

theorem adjust_bounds_idem (media : List Compound) (usr : List (String × Reaction)) :
    adjust_bounds media (adjust_bounds media usr) = adjust_bounds media usr := by
  unfold adjust_bounds
  rw [List.map_map]
  apply List.map_congr_left
  intro u _
  simp [Function.comp, reconcile_idem]

theorem adjust_reactions_idem (media : List Compound) (usr reactions : List (String × Reaction)) :
    adjust_reactions media (adjust_bounds media usr) (adjust_reactions media usr reactions) =
      adjust_reactions media usr reactions := by
  unfold adjust_reactions
  rw [List.map_map]
  apply List.map_congr_left
  intro p _
  exact adjust_store_entry_idem media usr p

theorem adjust_reactions_nil (media : List Compound) (st : List (String × Reaction)) :
    adjust_reactions media [] st = st := by
  unfold adjust_reactions adjust_store_entry
  simp [List.lookup]

theorem frame_view_classify_rxn (p : String × Reaction) :
    frame_view (p.1, classify_rxn p.2) = frame_view p := by
  unfold frame_view classify_rxn set_uptake_flag
  by_cases hm : matches_biomass p.2.name = true
  · simp [hm]
  · by_cases hb : is_boundary_rxn p.2 = true <;> simp [hm, hb]

theorem frame_view_adjust_store_entry (media : List Compound)
    (usr : List (String × Reaction)) (p : String × Reaction) :
    frame_view (adjust_store_entry media usr p) = frame_view p := by
  cases hl : usr.lookup p.1 with
  | none => simp [adjust_store_entry, hl]
  | some b =>
    by_cases hc : is_media_component media b = true
    · simp [adjust_store_entry, hl, hc]
    · simp [adjust_store_entry, hl, hc, frame_view]

theorem frame_view_reconcile (media : List Compound) (u : String × Reaction) :
    frame_view (u.1, reconcile media u.2) = frame_view u := by
  unfold frame_view reconcile
  by_cases h : is_media_component media u.2 = true <;> simp [h]

theorem prepared_reactions_frame (rs : List (String × Reaction)) (media : List Compound) :
    (prepared_reactions rs media).map frame_view = rs.map frame_view := by
  unfold prepared_reactions adjust_reactions
  rw [classify_reactions_eq, List.map_map, List.map_map]
  apply List.map_congr_left
  intro p _
  show frame_view (adjust_store_entry media (classify rs).uptake_secretion_reactions
    (p.1, classify_rxn p.2)) = frame_view p
  rw [frame_view_adjust_store_entry, frame_view_classify_rxn]

theorem classify_parts_perm (rs : List (String × Reaction))
    (hone : (rs.filter (fun p => matches_biomass p.2.name)).length ≤ 1) :
    (boundary_ids (classify rs) ++ ((classify rs).reactions_to_run ++
      biomass_ids (classify rs))).Perm (rs.map Prod.fst) := by
  rw [← Multiset.coe_eq_coe, ← Multiset.coe_add, ← Multiset.coe_add, ← add_assoc]
  exact classify_ids_multiset rs hone

theorem classify_parts_nodup (rs : List (String × Reaction))
    (hnd : (rs.map Prod.fst).Nodup)
    (hone : (rs.filter (fun p => matches_biomass p.2.name)).length ≤ 1) :
    (boundary_ids (classify rs)).Disjoint (classify rs).reactions_to_run ∧
      (boundary_ids (classify rs)).Disjoint (biomass_ids (classify rs)) ∧
      ((classify rs).reactions_to_run).Disjoint (biomass_ids (classify rs)) := by
  have hnd' := (classify_parts_perm rs hone).nodup_iff.mpr hnd
  rw [List.nodup_append] at hnd'
  obtain ⟨_, hnd'', hdisj⟩ := hnd'
  rw [List.nodup_append] at hnd''
  rw [List.disjoint_append_right] at hdisj
  exact ⟨hdisj.1, hdisj.2, hnd''.2.2⟩

/-- C1: for every model (reaction ids unique, and at most one reaction
matching the biomass marker, as the data model requires), the boundary
mapping keys, the runnable id set and the singleton of the biomass id are
pairwise disjoint and their union is exactly the set of reaction ids of the
model. -/
theorem classifier_partition (rs : List (String × Reaction))
    (hnd : (rs.map Prod.fst).Nodup)
    (hone : (rs.filter (fun p => matches_biomass p.2.name)).length ≤ 1) :
    (boundary_ids (classify rs)).Disjoint (classify rs).reactions_to_run ∧
      (boundary_ids (classify rs)).Disjoint (biomass_ids (classify rs)) ∧
      ((classify rs).reactions_to_run).Disjoint (biomass_ids (classify rs)) ∧
      ∀ x, (x ∈ boundary_ids (classify rs) ∨ x ∈ (classify rs).reactions_to_run ∨
        x ∈ biomass_ids (classify rs)) ↔ x ∈ rs.map Prod.fst := by
  obtain ⟨h1, h2, h3⟩ := classify_parts_nodup rs hnd hone
  refine ⟨h1, h2, h3, ?_⟩
  intro x
  rw [← (classify_parts_perm rs hone).mem_iff]
  simp [List.mem_append]

/-- Witness for the partition property at a concrete three-reaction model:
one boundary reaction, one biomass reaction, one runnable reaction. -/
theorem classifier_partition_witness :
    (boundary_ids (classify c1_model)).Disjoint (classify c1_model).reactions_to_run ∧
      (boundary_ids (classify c1_model)).Disjoint (biomass_ids (classify c1_model)) ∧
      ((classify c1_model).reactions_to_run).Disjoint (biomass_ids (classify c1_model)) ∧
      ∀ x, (x ∈ boundary_ids (classify c1_model) ∨
        x ∈ (classify c1_model).reactions_to_run ∨
        x ∈ biomass_ids (classify c1_model)) ↔ x ∈ c1_model.map Prod.fst :=
  classifier_partition c1_model (by decide) (by decide)

/-- C4: under the same model well-formedness hypotheses, the classifier
returns `none` when no reaction name matches the biomass marker, returns the
unique matching reaction when one exists, and the biomass reaction id lands
neither among the boundary keys nor among the runnable ids. -/
theorem classifier_biomass_spec (rs : List (String × Reaction))
    (hnd : (rs.map Prod.fst).Nodup)
    (hone : (rs.filter (fun p => matches_biomass p.2.name)).length ≤ 1) :
    ((∀ p ∈ rs, matches_biomass p.2.name = false) →
        (classify rs).biomass_equation = none) ∧
      (∀ r rxn, (r, rxn) ∈ rs → matches_biomass rxn.name = true →
        (classify rs).biomass_equation = some (r, rxn)) ∧
      ∀ r rxn, (classify rs).biomass_equation = some (r, rxn) →
        r ∉ boundary_ids (classify rs) ∧ r ∉ (classify rs).reactions_to_run := by
  refine ⟨classify_biomass_none rs,
    fun r rxn hm hmatch => classify_biomass_of_match rs hone hm hmatch, ?_⟩
  intro r rxn hsome
  obtain ⟨_, h2, h3⟩ := classify_parts_nodup rs hnd hone
  have hr : r ∈ biomass_ids (classify rs) := by
    rw [biomass_ids_of_some hsome]
    exact List.mem_singleton.mpr rfl
  exact ⟨fun hb => h2 hb hr, fun hrn => h3 hrn hr⟩

/-- Witness for the biomass selection property: on the same concrete model,
the biomass reaction is found and is in neither other output. -/
theorem classifier_biomass_spec_witness :
    ((∀ p ∈ c4_model, matches_biomass p.2.name = false) →
        (classify c4_model).biomass_equation = none) ∧
      (∀ r rxn, (r, rxn) ∈ c4_model → matches_biomass rxn.name = true →
        (classify c4_model).biomass_equation = some (r, rxn)) ∧
      ∀ r rxn, (classify c4_model).biomass_equation = some (r, rxn) →
        r ∉ boundary_ids (classify c4_model) ∧ r ∉ (classify c4_model).reactions_to_run :=
  classifier_biomass_spec c4_model (by decide) (by decide)

/-- C2: a boundary reaction none of whose compounds is in the medium gets
its lower bound set to exactly 0 (whatever its original lower bound was,
all other fields untouched); a boundary reaction with at least one compound
in the medium is passed through unchanged. -/
theorem bound_reconciler_spec (media : List Compound) (usr : List (String × Reaction))
    (u : String) (rxn : Reaction) (hmem : (u, rxn) ∈ usr) :
    ((∀ c ∈ rxn.all_compounds, c ∉ media) →
        (u, { rxn with lower_bound := 0 }) ∈ adjust_bounds media usr) ∧
      ((∃ c ∈ rxn.all_compounds, c ∈ media) → (u, rxn) ∈ adjust_bounds media usr) := by
  have hm2 : (u, reconcile media rxn) ∈ adjust_bounds media usr := by
    unfold adjust_bounds
    exact List.mem_map_of_mem (fun q => (q.1, reconcile media q.2)) hmem
  constructor
  · intro habs
    have hc : is_media_component media rxn = false := by
      rw [is_media_component, List.any_eq_false]
      intro c hcmem
      simp [habs c hcmem]
    have hrec : reconcile media rxn = { rxn with lower_bound := 0 } := by
      rw [reconcile, if_neg (by simp [hc])]
    rwa [hrec] at hm2
  · rintro ⟨c, hcmem, hcmedia⟩
    have hc : is_media_component media rxn = true := by
      rw [is_media_component, List.any_eq_true]
      exact ⟨c, hcmem, by simpa using hcmedia⟩
    have hrec : reconcile media rxn = rxn := by rw [reconcile, if_pos hc]
    rwa [hrec] at hm2

/-- Witness for the reconciler: in a concrete boundary mapping, the reaction
with no medium compound has its lower bound clamped from -1000 to 0, and the
reaction with a medium compound survives unchanged. -/
theorem bound_reconciler_spec_witness :
    ("u1", (⟨"EX A", [⟨"A", true⟩], 0, 1000, true⟩ : Reaction)) ∈
        adjust_bounds c2_media c2_usr ∧
      ("u2", (⟨"EX glucose", [⟨"glucose", false⟩], -1000, 1000, true⟩ : Reaction)) ∈
        adjust_bounds c2_media c2_usr :=
  ⟨(bound_reconciler_spec c2_media c2_usr "u1"
      ⟨"EX A", [⟨"A", true⟩], -1000, 1000, true⟩ (by decide)).1 (by decide),
    (bound_reconciler_spec c2_media c2_usr "u2"
      ⟨"EX glucose", [⟨"glucose", false⟩], -1000, 1000, true⟩ (by decide)).2
      ⟨⟨"glucose", false⟩, by decide, by decide⟩⟩

/-- C3: a non-biomass reaction is put into the boundary mapping exactly when
some compound it references is flagged; in that case its own flag is set to
true both in the boundary mapping and in the reaction store; otherwise its
id goes to the runnable set. -/
theorem classifier_boundary_iff (rs : List (String × Reaction)) (r : String) (rxn : Reaction)
    (hnd : (rs.map Prod.fst).Nodup) (hmem : (r, rxn) ∈ rs)
    (hnb : matches_biomass rxn.name = false) :
    ((r ∈ boundary_ids (classify rs)) ↔ ∃ c ∈ rxn.all_compounds, c.uptake_secretion = true) ∧
      ((∃ c ∈ rxn.all_compounds, c.uptake_secretion = true) →
        (r, set_uptake_flag rxn) ∈ (classify rs).uptake_secretion_reactions ∧
          (r, set_uptake_flag rxn) ∈ (classify rs).reactions) ∧
      ((∀ c ∈ rxn.all_compounds, c.uptake_secretion = false) →
        r ∈ (classify rs).reactions_to_run) := by
  refine ⟨⟨?_, ?_⟩, ?_, ?_⟩
  · intro hr
    rw [boundary_ids, classify_usr_eq, List.map_map] at hr
    obtain ⟨⟨q1, q2⟩, hq, hq1⟩ := List.mem_map.mp hr
    rw [List.mem_filter] at hq
    have hkey : q1 = r := hq1
    rw [hkey] at hq
    have hq2 : q2 = rxn := eq_of_mem_of_nodup_keys hnd hq.1 hmem
    rw [hq2] at hq
    have hb : is_boundary_rxn rxn = true := by
      have := hq.2
      simp only [Bool.and_eq_true, Bool.not_eq_true'] at this
      exact this.2
    rw [is_boundary_rxn, List.any_eq_true] at hb
    exact hb
  · intro hex
    have hb : is_boundary_rxn rxn = true := by
      rw [is_boundary_rxn, List.any_eq_true]
      exact hex
    rw [boundary_ids, classify_usr_eq, List.map_map]
    exact List.mem_map.mpr ⟨(r, rxn), List.mem_filter.mpr ⟨hmem, by simp [hnb, hb]⟩, rfl⟩
  · intro hex
    have hb : is_boundary_rxn rxn = true := by
      rw [is_boundary_rxn, List.any_eq_true]
      exact hex
    constructor
    · rw [classify_usr_eq]
      exact List.mem_map.mpr ⟨(r, rxn), List.mem_filter.mpr ⟨hmem, by simp [hnb, hb]⟩, rfl⟩
    · rw [classify_reactions_eq]
      have hcr : classify_rxn rxn = set_uptake_flag rxn := by
        rw [classify_rxn]
        simp [hnb, hb]
      refine List.mem_map.mpr ⟨(r, rxn), hmem, ?_⟩
      simp [hcr]
  · intro hall
    have hb : is_boundary_rxn rxn = false := by
      rw [is_boundary_rxn, List.any_eq_false]
      intro c hc
      simp [hall c hc]
    rw [classify_run_eq]
    exact List.mem_map.mpr ⟨(r, rxn), List.mem_filter.mpr ⟨hmem, by simp [hnb, hb]⟩, rfl⟩

/-- Witness for the boundary classification at a concrete two-reaction
model: the exchange reaction is boundary with its flag set, the internal
reaction is runnable. -/
theorem classifier_boundary_iff_witness :
    (("b1" ∈ boundary_ids (classify c3_model)) ↔
        ∃ c ∈ [(⟨"X", true⟩ : Compound), ⟨"Y", false⟩], c.uptake_secretion = true) ∧
      ((∃ c ∈ [(⟨"X", true⟩ : Compound), ⟨"Y", false⟩], c.uptake_secretion = true) →
        ("b1", set_uptake_flag ⟨"exchange", [⟨"X", true⟩, ⟨"Y", false⟩], -10, 10, false⟩) ∈
            (classify c3_model).uptake_secretion_reactions ∧
          ("b1", set_uptake_flag ⟨"exchange", [⟨"X", true⟩, ⟨"Y", false⟩], -10, 10, false⟩) ∈
            (classify c3_model).reactions) ∧
      ((∀ c ∈ [(⟨"X", true⟩ : Compound), ⟨"Y", false⟩], c.uptake_secretion = false) →
        "b1" ∈ (classify c3_model).reactions_to_run) :=
  classifier_boundary_iff c3_model "b1" ⟨"exchange", [⟨"X", true⟩, ⟨"Y", false⟩], -10, 10, false⟩
    (by decide) (by decide) (by decide)

/-- C5: a key of the input compound mapping survives the filter exactly when
its compound's flag is false; surviving keys keep the very same compound
record, and every filtered entry is an entry of the input. -/
theorem compound_filter_spec (acs : List (String × Compound)) (c : String) (cpd : Compound)
    (hnd : (acs.map Prod.fst).Nodup) (hmem : (c, cpd) ∈ acs) :
    ((c ∈ (filter_compounds acs).map Prod.fst) ↔ cpd.uptake_secretion = false) ∧
      (cpd.uptake_secretion = false → (c, cpd) ∈ filter_compounds acs) ∧
      ∀ q ∈ filter_compounds acs, q ∈ acs := by
  refine ⟨⟨?_, ?_⟩, ?_, ?_⟩
  · intro hc
    rw [filter_compounds] at hc
    obtain ⟨⟨q1, q2⟩, hq, hq1⟩ := List.mem_map.mp hc
    rw [List.mem_filter] at hq
    have hkey : q1 = c := hq1
    rw [hkey] at hq
    have hq2 : q2 = cpd := eq_of_mem_of_nodup_keys hnd hq.1 hmem
    have := hq.2
    rw [hq2] at this
    simpa using this
  · intro hflag
    rw [filter_compounds]
    refine List.mem_map.mpr ⟨(c, cpd), List.mem_filter.mpr ⟨hmem, by simp [hflag]⟩, rfl⟩
  · intro hflag
    rw [filter_compounds]
    exact List.mem_filter.mpr ⟨hmem, by simp [hflag]⟩
  · intro q hq
    rw [filter_compounds] at hq
    exact (List.mem_filter.mp hq).1

/-- Witness for the compound filter on a concrete mapping with one flagged
and one unflagged compound. -/
theorem compound_filter_spec_witness :
    (("w" ∈ (filter_compounds c5_compounds).map Prod.fst) ↔
        (⟨"water", false⟩ : Compound).uptake_secretion = false) ∧
      ((⟨"water", false⟩ : Compound).uptake_secretion = false →
        ("w", (⟨"water", false⟩ : Compound)) ∈ filter_compounds c5_compounds) ∧
      ∀ q ∈ filter_compounds c5_compounds, q ∈ c5_compounds :=
  compound_filter_spec c5_compounds "w" ⟨"water", false⟩ (by decide) (by decide)

/-- C6: when no reaction name matches the biomass marker the pipeline stops
with `MissingObjective`, and its result does not depend on the solver
collaborator, i.e. the solver is never consulted. -/
theorem missing_objective_spec (rs : List (String × Reaction))
    (acs : List (String × Compound)) (media : List Compound)
    (solver1 solver2 : SolverFn)
    (h : ∀ p ∈ rs, matches_biomass p.2.name = false) :
    run_pipeline solver1 rs acs media = Except.error PrepError.MissingObjective ∧
      run_pipeline solver1 rs acs media = run_pipeline solver2 rs acs media := by
  have hnone := classify_biomass_none rs h
  constructor
  · rw [run_pipeline, hnone]
  · rw [run_pipeline, run_pipeline, hnone]

/-- Witness for the missing-objective behaviour on a concrete model with no
biomass-matching reaction and two solvers that differ everywhere. -/
theorem missing_objective_spec_witness :
    run_pipeline (fun _ _ _ _ _ _ => ⟨"opt", 3, true⟩) c6_model [] [] =
        Except.error PrepError.MissingObjective ∧
      run_pipeline (fun _ _ _ _ _ _ => ⟨"opt", 3, true⟩) c6_model [] [] =
        run_pipeline (fun _ _ _ _ _ _ => ⟨"infeasible", 0, false⟩) c6_model [] [] :=
  missing_objective_spec c6_model [] []
    (fun _ _ _ _ _ _ => ⟨"opt", 3, true⟩)
    (fun _ _ _ _ _ _ => ⟨"infeasible", 0, false⟩) (by decide)

/-- C7: across classification and reconciliation, every entry of the
reaction store keeps its key, name, upper bound and compound set; the
filtered compound mapping only holds unmodified entries of the input; and
every boundary-mapping entry handed to the solver agrees with some loader
entry on all frame fields. -/
theorem pipeline_frame_spec (rs : List (String × Reaction)) (acs : List (String × Compound))
    (media : List Compound) :
    (prepared_reactions rs media).map frame_view = rs.map frame_view ∧
      (∀ q ∈ filter_compounds acs, q ∈ acs) ∧
      ∀ q ∈ adjust_bounds media (classify rs).uptake_secretion_reactions,
        ∃ rxn, (q.1, rxn) ∈ rs ∧ frame_view (q.1, rxn) = frame_view q := by
  refine ⟨prepared_reactions_frame rs media, ?_, ?_⟩
  · intro q hq
    rw [filter_compounds] at hq
    exact (List.mem_filter.mp hq).1
  · intro q hq
    unfold adjust_bounds at hq
    obtain ⟨u, hu, rfl⟩ := List.mem_map.mp hq
    rw [classify_usr_eq] at hu
    obtain ⟨p, hp, rfl⟩ := List.mem_map.mp hu
    rw [List.mem_filter] at hp
    refine ⟨p.2, hp.1, ?_⟩
    rw [frame_view_reconcile]
    rfl

/-- C8: running the cell-17 reconciliation twice over the same medium gives
the same boundary mapping and the same reaction store as running it once. -/
theorem reconciler_idempotent (media : List Compound)
    (usr reactions : List (String × Reaction)) :
    adjust_bounds media (adjust_bounds media usr) = adjust_bounds media usr ∧
      adjust_reactions media (adjust_bounds media usr)
          (adjust_reactions media usr reactions) = adjust_reactions media usr reactions :=
  ⟨adjust_bounds_idem media usr, adjust_reactions_idem media usr reactions⟩

/-- C9 counterexample: a model whose classifier yields an empty boundary
mapping while the compound mapping holds a flagged compound that no reaction
references; the filter drops that compound, so the filtered mapping differs
from the full one even though the boundary mapping is empty. -/
theorem empty_boundary_counterexample :
    (classify c9_model).uptake_secretion_reactions = [] ∧
      filter_compounds c9_compounds ≠ c9_compounds := by
  decide

/-- C9 (amended): for a model with an empty boundary mapping in which,
additionally, every flagged compound of the compound mapping is referenced
by some non-biomass reaction, the filtered mapping equals the full mapping
and reconciliation changes nothing, whatever the medium. -/
theorem empty_boundary_noop (rs : List (String × Reaction))
    (acs : List (String × Compound)) (media : List Compound)
    (href : ∀ p ∈ acs, p.2.uptake_secretion = true →
      ∃ q ∈ rs, matches_biomass q.2.name = false ∧ p.2 ∈ q.2.all_compounds)
    (hempty : (classify rs).uptake_secretion_reactions = []) :
    filter_compounds acs = acs ∧
      adjust_bounds media (classify rs).uptake_secretion_reactions =
        (classify rs).uptake_secretion_reactions ∧
      ∀ st, adjust_reactions media (classify rs).uptake_secretion_reactions st = st := by
  refine ⟨?_, by rw [hempty]; rfl, fun st => by rw [hempty]; exact adjust_reactions_nil media st⟩
  have hall : ∀ p ∈ acs, (!p.2.uptake_secretion) = true := by
    intro p hp
    by_contra hflag
    have hflag' : p.2.uptake_secretion = true := by
      cases hfv : p.2.uptake_secretion
      · exact absurd (by simp [hfv]) hflag
      · rfl
    obtain ⟨q, hq, hqb, hqc⟩ := href p hp hflag'
    have hbq : is_boundary_rxn q.2 = true := by
      rw [is_boundary_rxn, List.any_eq_true]
      exact ⟨p.2, hqc, hflag'⟩
    have hmem : (q.1, set_uptake_flag q.2) ∈ (classify rs).uptake_secretion_reactions := by
      rw [classify_usr_eq]
      exact List.mem_map.mpr ⟨q, List.mem_filter.mpr ⟨hq, by simp [hqb, hbq]⟩, rfl⟩
    rw [hempty] at hmem
    cases hmem
  rw [filter_compounds]
  exact List.filter_eq_self.mpr hall

/-- Witness for the amended empty-boundary claim: one unflagged, referenced
compound; filtering and reconciliation are both the identity. -/
theorem empty_boundary_noop_witness :
    filter_compounds c9w_compounds = c9w_compounds ∧
      adjust_bounds c9w_media (classify c9w_model).uptake_secretion_reactions =
        (classify c9w_model).uptake_secretion_reactions ∧
      ∀ st, adjust_reactions c9w_media
        (classify c9w_model).uptake_secretion_reactions st = st :=
  empty_boundary_noop c9w_model c9w_compounds c9w_media (by decide) (by decide)

/-- C10: a non-biomass reaction none of whose compounds is flagged is added
to the runnable set and its record in the store is byte-for-byte the loader
record, its own uptake/secretion flag included; so a runnable reaction may
still carry a true flag. -/
theorem classifier_keeps_flag (rs : List (String × Reaction)) (r : String) (rxn : Reaction)
    (hmem : (r, rxn) ∈ rs) (hnb : matches_biomass rxn.name = false)
    (hnone : ∀ c ∈ rxn.all_compounds, c.uptake_secretion = false) :
    r ∈ (classify rs).reactions_to_run ∧ (r, rxn) ∈ (classify rs).reactions := by
  have hb : is_boundary_rxn rxn = false := by
    rw [is_boundary_rxn, List.any_eq_false]
    intro c hc
    simp [hnone c hc]
  constructor
  · rw [classify_run_eq]
    exact List.mem_map.mpr ⟨(r, rxn), List.mem_filter.mpr ⟨hmem, by simp [hnb, hb]⟩, rfl⟩
  · rw [classify_reactions_eq]
    have hcr : classify_rxn rxn = rxn := by
      rw [classify_rxn]
      simp [hnb, hb]
    refine List.mem_map.mpr ⟨(r, rxn), hmem, ?_⟩
    simp [hcr]

/-- Witness for flag preservation: a runnable reaction whose loader flag is
true keeps it, so runnable membership does not imply a false flag. -/
theorem classifier_keeps_flag_witness :
    "r1" ∈ (classify c10_model).reactions_to_run ∧
      ("r1", (⟨"rxn one", [⟨"water", false⟩], -1000, 1000, true⟩ : Reaction)) ∈
        (classify c10_model).reactions :=
  classifier_keeps_flag c10_model "r1" ⟨"rxn one", [⟨"water", false⟩], -1000, 1000, true⟩
    (by decide) (by decide) (by decide)
